import Mathlib

/-!
Verification of the wallet-core module of the web3-wallet-lab repository.

The TypeScript source (packages/wallet-core/src/wallet.ts) is shallowly
embedded here.  JavaScript strings are represented as `List Char`; the
external ethers.js library (address validation, checksumming, ether
parsing, wallet construction) and the JSON-RPC network boundary are
abstracted into an explicit environment record `ChainEnv`, so that every
operation of the module becomes a total Lean function of the environment
and its arguments.  Functions that can throw in the source return
`Except WalletError _`; each `WalletError` constructor corresponds to one
throw site and is documented with the exact message string thrown there.
The progress callback of `sendNativeTransaction` is modelled by returning
the list of emitted `TransferProgress` events in order.
-/

/-! ### JavaScript string primitives

The source uses `String.prototype.trim`, `String.prototype.slice` and
`replace(/\s+/g, " ")`.  We model strings as `List Char` and whitespace
as the common ASCII whitespace characters. -/

/-- Whitespace test used by the model of `trim` and of the regex `\s`. -/
def isWS (c : Char) : Bool := c == ' ' || c == '\t' || c == '\n' || c == '\r'

/-- Remove trailing whitespace. -/
def trimRight (s : List Char) : List Char := (s.reverse.dropWhile isWS).reverse

/-- Model of `String.prototype.trim`: remove leading and trailing whitespace. -/
def trimList (s : List Char) : List Char := trimRight (s.dropWhile isWS)

/-- Worker for `squashWS`: the flag records whether the previous
character was whitespace (i.e. a run is open and its single replacement
space has already been emitted). -/
def squashWSAux : Bool → List Char → List Char
  | _, [] => []
  | inRun, c :: cs =>
    if isWS c then
      if inRun then squashWSAux true cs
      else ' ' :: squashWSAux true cs
    else c :: squashWSAux false cs

/-- Model of `s.replace(/\s+/g, " ")`: every maximal run of whitespace is
replaced by a single space.  In the source it is always applied to an
already trimmed string. -/
def squashWS (s : List Char) : List Char := squashWSAux false s

/-- Model of the negative-index form `s.slice(-n)` of JavaScript: the last
`n` characters, except that `s.slice(-0)` is `s.slice(0)`, the whole
string. -/
def sliceLast (s : List Char) (n : Nat) : List Char :=
  if n = 0 then s else s.drop (s.length - n)

/-! ### Data model -/

/-- `WalletSnapshot` from the source: the identity returned to callers. -/
structure WalletSnapshot where
  address : List Char
  privateKey : List Char
  mnemonic : Option (List Char)
  deriving DecidableEq, Repr

/-- The shape of the ethers wallet objects consumed by `toSnapshot`
(`WalletLike` in the source): `mnemonic` is an optional-or-null object
whose `phrase` field is itself optional, hence the nested `Option`. -/
structure WalletLike where
  address : List Char
  privateKey : List Char
  mnemonic : Option (Option (List Char))
  deriving DecidableEq, Repr

/-- `SupportedNetwork` from the source. -/
inductive SupportedNetwork where
  | mainnet
  | sepolia
  deriving DecidableEq, BEq, Repr

/-- `NetworkInfo` from the source. -/
structure NetworkInfo where
  key : SupportedNetwork
  label : List Char
  chainId : Nat
  symbol : List Char
  rpcUrl : List Char
  explorerTxBaseUrl : Option (List Char)
  deriving DecidableEq, Repr

/-- A JSON-RPC provider handle; `new JsonRpcProvider(rpcUrl, chainId)` is
modelled as constructing this record, and handle identity as equality of
the record. -/
structure Provider where
  rpcUrl : List Char
  chainId : Nat
  deriving DecidableEq, Repr

/-- The module-level `PROVIDERS` object: a partial record with one
optional slot per supported network, so it can never hold more than one
client per network id. -/
structure ProviderCache where
  mainnet : Option Provider := none
  sepolia : Option Provider := none
  deriving DecidableEq, Repr

/-- `PROVIDERS[network]` read access. -/
def ProviderCache.lookup (cache : ProviderCache) : SupportedNetwork → Option Provider
  | .mainnet => cache.mainnet
  | .sepolia => cache.sepolia

/-- `PROVIDERS[network] = created` write access. -/
def ProviderCache.store (cache : ProviderCache) (network : SupportedNetwork)
    (provider : Provider) : ProviderCache :=
  match network with
  | .mainnet => { cache with mainnet := some provider }
  | .sepolia => { cache with sepolia := some provider }

/-- The initial, empty `PROVIDERS` object. -/
def emptyProviders : ProviderCache := {}

/-- `NativeTransferRequest` from the source. -/
structure NativeTransferRequest where
  privateKey : List Char
  toAddr : List Char
  amountEth : List Char
  network : SupportedNetwork
  deriving DecidableEq, Repr

/-- `TransferProgressStage` from the source. -/
inductive TransferProgressStage where
  | signing
  | broadcasted
  | confirming
  deriving DecidableEq, Repr

/-- `TransferProgress` from the source: the payload passed to the
`onProgress` callback. -/
structure TransferProgress where
  stage : TransferProgressStage
  hash : Option (List Char) := none
  deriving DecidableEq, Repr

/-- `NativeTransferResult` from the source.  `valueWei` is kept as the
exact integer whose decimal rendering the source stores
(`value.toString()`). -/
structure NativeTransferResult where
  network : SupportedNetwork
  chainId : Nat
  hash : List Char
  fromAddr : List Char
  toAddr : List Char
  amountEth : List Char
  valueWei : Int
  blockNumber : Nat
  explorerUrl : Option (List Char)
  confirmedAt : List Char
  deriving DecidableEq, Repr

/-- A transaction response as returned by `signer.sendTransaction`
(the fields the source reads: `hash`, `from`, `chainId`). -/
structure TransactionResponse where
  hash : List Char
  fromAddr : List Char
  chainId : Nat
  deriving DecidableEq, Repr

/-- A transaction receipt as returned by `response.wait()` (the fields
the source reads: `status`, `blockNumber`). -/
structure TransactionReceipt where
  status : Nat
  blockNumber : Nat
  deriving DecidableEq, Repr

/-- One constructor per throw site of the module, documented with the
exact `Error` message thrown in the source. -/
inductive WalletError where
  /-- "Private key is required." -/
  | privateKeyRequired
  /-- thrown inside ethers by `new Wallet` on a malformed key -/
  | invalidPrivateKey
  /-- "Mnemonic phrase is required." -/
  | mnemonicRequired
  /-- thrown inside ethers by `Wallet.fromPhrase` on an invalid phrase -/
  | invalidMnemonic
  /-- "Recipient address is required." -/
  | recipientRequired
  /-- "Invalid recipient address." -/
  | invalidRecipient
  /-- "Amount is required." -/
  | amountRequired
  /-- "Invalid amount format." -/
  | invalidAmount
  /-- "Amount must be greater than zero." -/
  | nonPositiveAmount
  /-- a rejected RPC call (broadcast or confirmation wait) -/
  | transportError
  /-- "Transaction failed on-chain." -/
  | onChainFailure
  deriving DecidableEq, Repr

/-- The external world: ethers.js primitives and the network boundary.
Each field abstracts one library call the module makes; the embedding is
parametric in this record, so library behaviour enters theorems only as
explicit hypotheses.
* `isAddress`, `getAddress`: ethers address validation and checksumming.
* `parseEther`: decimal-ether string to wei; `none` models a throw.
* `formatEther`: wei to decimal string.
* `walletFromKey k`: `new Wallet(k)`; `none` models a throw on a
  malformed key.  The signer is abstracted by its construction key: the
  transaction broadcast receives the normalized key `k`.
* `walletFromPhrase p`: `Wallet.fromPhrase(p)`; `none` models a throw.
* `createRandom`: the wallet sampled by `Wallet.createRandom()` in the
  run being modelled.
* `sendTransaction provider key to value`: the broadcast; `none` models
  a rejected RPC call.
* `wait hash`: the confirmation wait; outer `none` models a rejected
  call, `some none` a null receipt.
* `nowISO`: the timestamp `new Date().toISOString()` observed. -/
structure ChainEnv where
  isAddress : List Char → Bool
  getAddress : List Char → List Char
  parseEther : List Char → Option Int
  formatEther : Int → List Char
  walletFromKey : List Char → Option WalletLike
  walletFromPhrase : List Char → Option WalletLike
  createRandom : WalletLike
  sendTransaction : Provider → List Char → List Char → Int → Option TransactionResponse
  wait : List Char → Option (Option TransactionReceipt)
  nowISO : List Char

/-! ### Network registry and connection cache -/

/-- The static `NETWORKS` catalog from the source. -/
def NETWORKS : List NetworkInfo :=
  [ { key := .sepolia
      label := ("Sepolia").toList
      chainId := 11155111
      symbol := ("ETH").toList
      rpcUrl := ("https://ethereum-sepolia-rpc.publicnode.com").toList
      explorerTxBaseUrl := some (("https://sepolia.etherscan.io/tx").toList) }
  , { key := .mainnet
      label := ("Ethereum Mainnet").toList
      chainId := 1
      symbol := ("ETH").toList
      rpcUrl := ("https://cloudflare-eth.com").toList
      explorerTxBaseUrl := some (("https://etherscan.io/tx").toList) } ]

/-- `getNetwork` from the source: find the catalog entry for a network.
The fallback arm models the `Unsupported network` throw, which is
unreachable because both enum values occur in `NETWORKS` (see
`getNetwork_finds`). -/
def getNetwork (network : SupportedNetwork) : NetworkInfo :=
  match NETWORKS.find? (fun item => item.key == network) with
  | some target => target
  | none =>
    { key := network, label := [], chainId := 0, symbol := [], rpcUrl := []
      explorerTxBaseUrl := none }

/-- `getProvider` from the source: return the cached client for the
network, or construct one from the catalog entry and store it. -/
def getProvider (cache : ProviderCache) (network : SupportedNetwork) :
    Provider × ProviderCache :=
  match cache.lookup network with
  | some found => (found, cache)
  | none =>
    let target := getNetwork network
    let created : Provider := { rpcUrl := target.rpcUrl, chainId := target.chainId }
    (created, cache.store network created)

/-! ### Key material engine -/

/-- Is the string of the form `0x...`?  Models `raw.startsWith("0x")`. -/
def has0x : List Char → Bool
  | c1 :: c2 :: _ => c1 == '0' && c2 == 'x'
  | _ => false

/-- Remove a leading `0x` if present (the `stripPrefix` of the spec). -/
def strip0x (s : List Char) : List Char :=
  if has0x s then s.drop 2 else s

/-- `normalizePrivateKey` from the source: trim, require non-empty, add
the `0x` tag when absent. -/
def normalizePrivateKey (input : List Char) : Except WalletError (List Char) :=
  let raw := trimList input
  if raw = [] then .error .privateKeyRequired
  else if has0x raw then .ok raw
  else .ok ('0' :: 'x' :: raw)

/-- `toSnapshot` from the source: `wallet.mnemonic?.phrase ?? null`
flattens the nested optional. -/
def toSnapshot (wallet : WalletLike) : WalletSnapshot :=
  { address := wallet.address
    privateKey := wallet.privateKey
    mnemonic := wallet.mnemonic.join }

/-- `createWallet` from the source. -/
def createWallet (env : ChainEnv) : WalletSnapshot :=
  toSnapshot env.createRandom

/-- `recoverWalletFromPrivateKey` from the source. -/
def recoverWalletFromPrivateKey (env : ChainEnv) (privateKey : List Char) :
    Except WalletError WalletSnapshot :=
  match normalizePrivateKey privateKey with
  | .error e => .error e
  | .ok nk =>
    match env.walletFromKey nk with
    | none => .error .invalidPrivateKey
    | some w => .ok (toSnapshot w)

/-- `recoverWalletFromMnemonic` from the source. -/
def recoverWalletFromMnemonic (env : ChainEnv) (mnemonic : List Char) :
    Except WalletError WalletSnapshot :=
  let phrase := squashWS (trimList mnemonic)
  if phrase = [] then .error .mnemonicRequired
  else
    match env.walletFromPhrase phrase with
    | none => .error .invalidMnemonic
    | some w => .ok (toSnapshot w)

/-- `isValidPrivateKey` from the source: the try/catch around
`recoverWalletFromPrivateKey`.  Being a total function it never throws. -/
def isValidPrivateKey (env : ChainEnv) (privateKey : List Char) : Bool :=
  match recoverWalletFromPrivateKey env privateKey with
  | .ok _ => true
  | .error _ => false

/-! ### Address presentation -/

/-- `maskAddress` from the source.  Trims, returns the trimmed string
when short, otherwise first `prefixLength` characters, an ellipsis, and
`slice(-suffixLength)`. -/
def maskAddress (address : List Char) (p : Nat := 6) (s : Nat := 4) : List Char :=
  let normalized := trimList address
  if normalized.length ≤ p + s then normalized
  else normalized.take p ++ ('.' :: '.' :: '.' :: sliceLast normalized s)

/-! ### Transfer engine -/

/-- `normalizeRecipientAddress` from the source: trim, require
non-empty, require `isAddress`, checksum via `getAddress`. -/
def normalizeRecipientAddress (env : ChainEnv) (input : List Char) :
    Except WalletError (List Char) :=
  let raw := trimList input
  if raw = [] then .error .recipientRequired
  else if env.isAddress raw then .ok (env.getAddress raw)
  else .error .invalidRecipient

/-- `normalizeTransferAmount` from the source: trim, require non-empty,
parse with `parseEther`, require a positive value. -/
def normalizeTransferAmount (env : ChainEnv) (amountEth : List Char) :
    Except WalletError Int :=
  let raw := trimList amountEth
  if raw = [] then .error .amountRequired
  else
    match env.parseEther raw with
    | none => .error .invalidAmount
    | some value => if value ≤ 0 then .error .nonPositiveAmount else .ok value

/-- `sendNativeTransaction` from the source.  The returned triple is
(the progress events emitted to `onProgress`, in order; the provider
cache after the call; the result or thrown error). -/
def sendNativeTransaction (env : ChainEnv) (cache : ProviderCache)
    (request : NativeTransferRequest) :
    List TransferProgress × ProviderCache × Except WalletError NativeTransferResult :=
  match normalizeRecipientAddress env request.toAddr with
  | .error e => ([], cache, .error e)
  | .ok toAddr =>
    match normalizeTransferAmount env request.amountEth with
    | .error e => ([], cache, .error e)
    | .ok value =>
      let networkInfo := getNetwork request.network
      let provider := (getProvider cache request.network).1
      let cache1 := (getProvider cache request.network).2
      match normalizePrivateKey request.privateKey with
      | .error e => ([], cache1, .error e)
      | .ok nk =>
        match env.walletFromKey nk with
        | none => ([], cache1, .error .invalidPrivateKey)
        | some _signer =>
          match env.sendTransaction provider nk toAddr value with
          | none => ([⟨.signing, none⟩], cache1, .error .transportError)
          | some response =>
            let events : List TransferProgress :=
              [⟨.signing, none⟩, ⟨.broadcasted, some response.hash⟩,
                ⟨.confirming, some response.hash⟩]
            match env.wait response.hash with
            | none => (events, cache1, .error .transportError)
            | some none => (events, cache1, .error .onChainFailure)
            | some (some receipt) =>
              if receipt.status = 1 then
                (events, cache1, .ok
                  { network := request.network
                    chainId := response.chainId
                    hash := response.hash
                    fromAddr := env.getAddress response.fromAddr
                    toAddr := toAddr
                    amountEth := env.formatEther value
                    valueWei := value
                    blockNumber := receipt.blockNumber
                    explorerUrl := Option.map
                      (fun base => base ++ '/' :: response.hash)
                      networkInfo.explorerTxBaseUrl
                    confirmedAt := env.nowISO })
              else (events, cache1, .error .onChainFailure)

/-! ### Concrete fixtures used by the closed witness theorems -/

/-- A raw two-hex-character key without the `0x` tag. -/
def chAB : List Char := 'a' :: 'b' :: []

/-- The same key with the `0x` tag. -/
def keyAB : List Char := '0' :: 'x' :: 'a' :: 'b' :: []

/-- A recipient address accepted by the test environment. -/
def addrOk : List Char := ("0x00000000000000000000000000000000000000aa").toList

/-- The mnemonic phrase accepted by the test environment. -/
def phraseAbCd : List Char := ("ab cd").toList

/-- The wallet the test environment returns for `keyAB`; as an ethers
`new Wallet` result it carries no mnemonic. -/
def specimenWallet : WalletLike :=
  { address := ("0xSenderAddr").toList, privateKey := keyAB, mnemonic := none }

/-- The wallet the test environment returns for `phraseAbCd`; as an
ethers HD wallet it carries its phrase. -/
def specimenMnWallet : WalletLike :=
  { address := ("0xMnemonicAddr").toList, privateKey := keyAB
    mnemonic := some (some phraseAbCd) }

/-- The broadcast response of the test environment. -/
def specimenResponse : TransactionResponse :=
  { hash := ("0xhash").toList, fromAddr := ("0xSenderAddr").toList
    chainId := 11155111 }

/-- A receipt with success status. -/
def okReceipt : TransactionReceipt := { status := 1, blockNumber := 7 }

/-- A receipt with failure status. -/
def badReceipt : TransactionReceipt := { status := 0, blockNumber := 7 }

/-- `new Wallet` of the test environment. -/
def testWalletFromKey (k : List Char) : Option WalletLike :=
  if k = keyAB then some specimenWallet else none

/-- `Wallet.fromPhrase` of the test environment. -/
def testWalletFromPhrase (p : List Char) : Option WalletLike :=
  if p = phraseAbCd then some specimenMnWallet else none

/-- A concrete environment on which every stage of a transfer succeeds. -/
def testEnv : ChainEnv :=
  { isAddress := fun s => s == addrOk
    getAddress := fun s => s
    parseEther := fun s =>
      if s = '1' :: [] then some 1000000000000000000
      else if s = '0' :: [] then some 0
      else none
    formatEther := fun _ => ("1.0").toList
    walletFromKey := testWalletFromKey
    walletFromPhrase := testWalletFromPhrase
    createRandom := specimenMnWallet
    sendTransaction := fun _ _ _ _ => some specimenResponse
    wait := fun _ => some (some okReceipt)
    nowISO := ("2026-01-01T00:00:00.000Z").toList }

/-- The test environment except that the mined receipt reports failure. -/
def failEnv : ChainEnv := { testEnv with wait := fun _ => some (some badReceipt) }

/-- A request on which every stage succeeds under `testEnv`. -/
def okRequest : NativeTransferRequest :=
  { privateKey := keyAB, toAddr := addrOk, amountEth := '1' :: [], network := .sepolia }

/-- `okRequest` with amount "0". -/
def zeroAmountRequest : NativeTransferRequest := { okRequest with amountEth := '0' :: [] }

/-- `okRequest` with an empty recipient. -/
def emptyRecipientRequest : NativeTransferRequest := { okRequest with toAddr := [] }

/-- `okRequest` with the malformed recipient of the spec scenario. -/
def badRecipientRequest : NativeTransferRequest :=
  { okRequest with toAddr := ("not-an-address").toList }

/-- The transfer result `sendNativeTransaction testEnv emptyProviders
okRequest` produces. -/
def okResult : NativeTransferResult :=
  { network := .sepolia
    chainId := 11155111
    hash := ("0xhash").toList
    fromAddr := ("0xSenderAddr").toList
    toAddr := addrOk
    amountEth := ("1.0").toList
    valueWei := 1000000000000000000
    blockNumber := 7
    explorerUrl := some (("https://sepolia.etherscan.io/tx").toList ++ '/' :: ("0xhash").toList)
    confirmedAt := ("2026-01-01T00:00:00.000Z").toList }

/-! ### General lemmas about the string primitives -/

/-- The `Unsupported network` throw in `getNetwork` is dead code: the
catalog lookup succeeds for every `SupportedNetwork`. -/
theorem getNetwork_finds (network : SupportedNetwork) :
    NETWORKS.find? (fun item => item.key == network) = some (getNetwork network) := by
  cases network <;> rfl

theorem dropWhile_idem (p : Char → Bool) (l : List Char) :
    (l.dropWhile p).dropWhile p = l.dropWhile p := by
  induction l with
  | nil => rfl
  | cons a l ih =>
    by_cases h : p a
    · rw [List.dropWhile_cons_of_pos h]
      exact ih
    · rw [List.dropWhile_cons_of_neg h, List.dropWhile_cons_of_neg h]

theorem dropWhile_append_last (p : Char → Bool) (l : List Char) (c : Char)
    (hc : p c = false) :
    (l ++ [c]).dropWhile p = l.dropWhile p ++ [c] := by
  induction l with
  | nil => simp [List.dropWhile_cons, hc]
  | cons a l ih =>
    by_cases h : p a
    · rw [List.cons_append, List.dropWhile_cons_of_pos h, List.dropWhile_cons_of_pos h, ih]
    · rw [List.cons_append, List.dropWhile_cons_of_neg h, List.dropWhile_cons_of_neg h,
        List.cons_append]

theorem trimRight_cons (c : Char) (cs : List Char) (hc : isWS c = false) :
    trimRight (c :: cs) = c :: trimRight cs := by
  unfold trimRight
  rw [List.reverse_cons, dropWhile_append_last isWS cs.reverse c hc, List.reverse_append]
  rfl

theorem trimRight_trimRight (u : List Char) : trimRight (trimRight u) = trimRight u := by
  unfold trimRight
  rw [List.reverse_reverse, dropWhile_idem]

theorem trimRight_trimList (k : List Char) : trimRight (trimList k) = trimList k := by
  unfold trimList
  exact trimRight_trimRight _

theorem dropWhile_head_false (p : Char → Bool) (u : List Char) :
    ∀ c cs, u.dropWhile p = c :: cs → p c = false := by
  induction u with
  | nil => intro c cs h; simp [List.dropWhile] at h
  | cons a l ih =>
    intro c cs h
    by_cases ha : p a
    · rw [List.dropWhile_cons_of_pos ha] at h
      exact ih c cs h
    · rw [List.dropWhile_cons_of_neg ha] at h
      injection h with h1 h2
      subst h1
      simpa using ha

theorem dropWhile_trimList (k : List Char) :
    (trimList k).dropWhile isWS = trimList k := by
  unfold trimList
  cases hv : k.dropWhile isWS with
  | nil => simp [trimRight]
  | cons c cs =>
    have hc : isWS c = false := dropWhile_head_false isWS k c cs hv
    rw [trimRight_cons c cs hc]
    exact List.dropWhile_cons_of_neg (by simp [hc])

theorem trimList_idem (k : List Char) : trimList (trimList k) = trimList k := by
  show trimRight ((trimList k).dropWhile isWS) = trimList k
  rw [dropWhile_trimList]
  exact trimRight_trimList k

theorem has0x_decomp (t : List Char) (h : has0x t = true) :
    t = '0' :: 'x' :: t.drop 2 := by
  cases t with
  | nil => simp [has0x] at h
  | cons c1 rest =>
    cases rest with
    | nil => simp [has0x] at h
    | cons c2 r =>
      simp only [has0x, Bool.and_eq_true, beq_iff_eq] at h
      obtain ⟨h1, h2⟩ := h
      subst h1
      subst h2
      rfl

theorem normalizePrivateKey_trim (k : List Char) :
    normalizePrivateKey (trimList k) = normalizePrivateKey k := by
  simp only [normalizePrivateKey, trimList_idem]

/-- The normalized forms of a key and of the `0x`-tagged form of its
stripped trimmed value agree. -/
theorem normalizePrivateKey_prefix_invariant (k : List Char) (hne : trimList k ≠ []) :
    normalizePrivateKey ('0' :: 'x' :: strip0x (trimList k)) = normalizePrivateKey k := by
  by_cases h0 : has0x (trimList k) = true
  · have hd := has0x_decomp (trimList k) h0
    have hstrip : strip0x (trimList k) = (trimList k).drop 2 := by
      simp [strip0x, h0]
    rw [hstrip, ← hd]
    exact normalizePrivateKey_trim k
  · have h0f : has0x (trimList k) = false := by
      cases hb : has0x (trimList k)
      · rfl
      · exact absurd hb h0
    have hstrip : strip0x (trimList k) = trimList k := by
      simp [strip0x, h0f]
    rw [hstrip]
    have htr : trimList ('0' :: 'x' :: trimList k) = '0' :: 'x' :: trimList k := by
      show trimRight (('0' :: 'x' :: trimList k).dropWhile isWS) = _
      rw [List.dropWhile_cons_of_neg (by decide)]
      rw [trimRight_cons _ _ (by decide), trimRight_cons _ _ (by decide), trimRight_trimList]
    simp only [normalizePrivateKey]
    rw [htr]
    have hcons : ('0' :: 'x' :: trimList k : List Char) ≠ [] := by simp
    have hcons0x : has0x ('0' :: 'x' :: trimList k) = true := by simp [has0x]
    rw [if_neg hcons, if_pos hcons0x, if_neg hne, if_neg (by simp [h0f])]

/-! ### Claim C5 — address masking -/

/-- C5 (counterexample): the claim as stated is false, because
`maskAddress` trims its input before anything else.  The input
`" abc "` has length 5, at or below the default
`prefixLength + suffixLength = 10`, yet the output is the trimmed
string `"abc"`, not the input unchanged. -/
theorem maskAddress_unchanged_cex :
    ((" abc ").toList).length ≤ 6 + 4
    ∧ maskAddress ((" abc ").toList) 6 4 ≠ (" abc ").toList := by
  decide

/-- C5 (amended): stated of the trimmed input, and for a positive
suffix length (JavaScript `slice(-0)` would return the whole string):
if the trimmed address length is at or below `p + s` the trimmed
address is returned unchanged; otherwise the output has length
`p + 3 + s`, its first `p` characters are those of the trimmed address
and its last `s` characters are those of the trimmed address. -/
theorem maskAddress_masking_spec (address : List Char) (p s : Nat) (hs : 1 ≤ s) :
    ((trimList address).length ≤ p + s → maskAddress address p s = trimList address)
    ∧ (p + s < (trimList address).length →
        (maskAddress address p s).length = p + 3 + s
        ∧ (maskAddress address p s).take p = (trimList address).take p
        ∧ (maskAddress address p s).drop ((maskAddress address p s).length - s)
            = (trimList address).drop ((trimList address).length - s)) := by
  constructor
  · intro h
    simp [maskAddress, h]
  · intro h
    have hns : ¬((trimList address).length ≤ p + s) := by omega
    have hs0 : ¬(s = 0) := by omega
    have hmask : maskAddress address p s =
        (trimList address).take p ++
          ('.' :: '.' :: '.' ::
            (trimList address).drop ((trimList address).length - s)) := by
      simp [maskAddress, hns, sliceLast, hs0]
    have htake : ((trimList address).take p).length = p := by
      simp [List.length_take]
      omega
    have hlen : (maskAddress address p s).length = p + 3 + s := by
      rw [hmask]
      simp [List.length_append, htake, List.length_drop]
      omega
    refine ⟨hlen, ?_, ?_⟩
    · rw [hmask, List.take_left' htake]
    · rw [hlen]
      have h3 : p + 3 + s - s = p + 3 := by omega
      rw [h3, hmask]
      have hsplit : ('.' :: '.' :: '.' ::
          (trimList address).drop ((trimList address).length - s))
          = ('.' :: '.' :: '.' :: ([] : List Char)) ++
            (trimList address).drop ((trimList address).length - s) := rfl
      rw [hsplit, ← List.append_assoc]
      refine List.drop_left' ?_
      simp [htake]

/-- C5 (witness): a concrete long address with surrounding whitespace,
masked with the default parameters. -/
theorem maskAddress_masking_spec_witness :
    (maskAddress ((" 0x12345678901234 ").toList) 6 4).length = 13
    ∧ maskAddress ((" 0x12345678901234 ").toList) 6 4 = ("0x1234...1234").toList := by
  have h := maskAddress_masking_spec ((" 0x12345678901234 ").toList) 6 4 (by decide)
  exact ⟨(h.2 (by decide)).1, by decide⟩

/-! ### Claim C6 — private keys ignore the 0x tag -/

/-- C6: for every non-empty (after trimming) private key input `k` that
recovers successfully, recovering from the `0x`-tagged form of the
stripped trimmed key returns the identical snapshot — in particular the
identical address. -/
theorem recoverWalletFromPrivateKey_prefix_invariant (env : ChainEnv) (k : List Char)
    (s : WalletSnapshot) (hne : trimList k ≠ [])
    (hv : recoverWalletFromPrivateKey env k = .ok s) :
    recoverWalletFromPrivateKey env ('0' :: 'x' :: strip0x (trimList k)) = .ok s := by
  unfold recoverWalletFromPrivateKey at hv ⊢
  rw [normalizePrivateKey_prefix_invariant k hne]
  exact hv

/-- C6 (witness): the untagged two-character key recovers to the same
snapshot as its `0x`-tagged form. -/
theorem recoverWalletFromPrivateKey_prefix_invariant_witness :
    recoverWalletFromPrivateKey testEnv ('0' :: 'x' :: strip0x (trimList chAB)) =
      .ok (toSnapshot specimenWallet) :=
  recoverWalletFromPrivateKey_prefix_invariant testEnv chAB (toSnapshot specimenWallet)
    (by decide) rfl

/-! ### Claim C7 — mnemonic recovery is deterministic modulo whitespace -/

/-- C7: recovery from a mnemonic is a pure function of the
whitespace-normalized phrase: any two inputs that agree after trimming
and collapsing internal whitespace runs to single spaces (in particular,
the same input twice) recover to identical snapshots, byte-identical
private key and address included.  There is no randomness in the
recovery path: the result depends only on the environment and the
phrase. -/
theorem recoverWalletFromMnemonic_whitespace_deterministic (env : ChainEnv)
    (m1 m2 : List Char) (h : squashWS (trimList m1) = squashWS (trimList m2)) :
    recoverWalletFromMnemonic env m1 = recoverWalletFromMnemonic env m2 := by
  simp only [recoverWalletFromMnemonic, h]

/-- C7 (witness): a phrase with leading, repeated internal, and trailing
whitespace recovers identically to its collapsed form. -/
theorem recoverWalletFromMnemonic_whitespace_deterministic_witness :
    recoverWalletFromMnemonic testEnv (("  ab   cd ").toList)
      = recoverWalletFromMnemonic testEnv phraseAbCd :=
  recoverWalletFromMnemonic_whitespace_deterministic testEnv (("  ab   cd ").toList)
    phraseAbCd (by decide)

/-! ### Claim C8 — the provider cache -/

theorem ProviderCache.lookup_store (cache : ProviderCache) (n m : SupportedNetwork)
    (p : Provider) :
    (cache.store n p).lookup m = if m = n then some p else cache.lookup m := by
  cases n <;> cases m <;> simp [ProviderCache.store, ProviderCache.lookup]

/-- A cache hit: `getProvider` returns the stored handle, cache untouched. -/
theorem getProvider_stored (cache : ProviderCache) (network : SupportedNetwork)
    (p : Provider) (h : cache.lookup network = some p) :
    getProvider cache network = (p, cache) := by
  unfold getProvider
  rw [h]

/-- A cache miss: `getProvider` constructs the client from the catalog
entry and stores it. -/
theorem getProvider_fresh (cache : ProviderCache) (network : SupportedNetwork)
    (h : cache.lookup network = none) :
    getProvider cache network =
      ({ rpcUrl := (getNetwork network).rpcUrl, chainId := (getNetwork network).chainId },
        cache.store network
          { rpcUrl := (getNetwork network).rpcUrl
            chainId := (getNetwork network).chainId }) := by
  unfold getProvider
  rw [h]

/-- C8: `getProvider` (i) leaves the requested network's slot holding
exactly the returned handle, (ii) is idempotent — an immediately repeated
call returns the very same handle and cache, (iii) on a cache miss
constructs the client from the network's catalog endpoint and chain id,
(iv) on a cache hit returns the stored handle with the cache untouched,
and (v) never touches any other network's slot.  The cache type itself
(one optional slot per network id) makes more than one client per id
unrepresentable. -/
theorem getProvider_cache_spec (cache : ProviderCache) (network : SupportedNetwork) :
    ((getProvider cache network).2.lookup network = some (getProvider cache network).1)
    ∧ (getProvider (getProvider cache network).2 network
        = ((getProvider cache network).1, (getProvider cache network).2))
    ∧ (cache.lookup network = none →
        (getProvider cache network).1
          = { rpcUrl := (getNetwork network).rpcUrl
              chainId := (getNetwork network).chainId })
    ∧ (∀ q, cache.lookup network = some q → getProvider cache network = (q, cache))
    ∧ (∀ other, other ≠ network →
        (getProvider cache network).2.lookup other = cache.lookup other) := by
  cases hl : cache.lookup network with
  | some q =>
    have hg := getProvider_stored cache network q hl
    have h1 : (getProvider cache network).2.lookup network
        = some (getProvider cache network).1 := by
      rw [hg]
      exact hl
    refine ⟨h1, getProvider_stored _ _ _ h1, ?_, ?_, ?_⟩
    · intro h
      exact Option.noConfusion h
    · intro q2 h
      injection h with h2
      subst h2
      exact hg
    · intro other hno
      rw [hg]
  | none =>
    have hg := getProvider_fresh cache network hl
    have h1 : (getProvider cache network).2.lookup network
        = some (getProvider cache network).1 := by
      rw [hg]
      simp [ProviderCache.lookup_store]
    refine ⟨h1, getProvider_stored _ _ _ h1, ?_, ?_, ?_⟩
    · intro _
      rw [hg]
    · intro q h
      exact Option.noConfusion h
    · intro other hno
      rw [hg]
      simp [ProviderCache.lookup_store, hno]

/-- C8 (witness): the first acquisition for sepolia on the empty cache
builds the client from the sepolia catalog entry. -/
theorem getProvider_cache_spec_witness :
    (getProvider emptyProviders .sepolia).1 =
      { rpcUrl := ("https://ethereum-sepolia-rpc.publicnode.com").toList
        chainId := 11155111 } :=
  (getProvider_cache_spec emptyProviders .sepolia).2.2.1 rfl

/-! ### Claim C9 — presence of the mnemonic field -/

/-- C9: under the documented ethers behaviour — `new Wallet` carries no
mnemonic, `Wallet.fromPhrase` and `Wallet.createRandom` carry one — a
snapshot recovered from a private key has `mnemonic = none`, and
snapshots from `recoverWalletFromMnemonic` and `createWallet` have a
present mnemonic. -/
theorem snapshot_mnemonic_presence (env : ChainEnv)
    (hkey : ∀ k w, env.walletFromKey k = some w → w.mnemonic.join = none)
    (hphrase : ∀ p w, env.walletFromPhrase p = some w → (w.mnemonic.join).isSome = true)
    (hrand : (env.createRandom.mnemonic.join).isSome = true) :
    (∀ k s, recoverWalletFromPrivateKey env k = .ok s → s.mnemonic = none)
    ∧ (∀ m s, recoverWalletFromMnemonic env m = .ok s → s.mnemonic.isSome = true)
    ∧ (createWallet env).mnemonic.isSome = true := by
  refine ⟨?_, ?_, ?_⟩
  · intro k s h
    unfold recoverWalletFromPrivateKey at h
    cases hn : normalizePrivateKey k with
    | error e =>
      simp only [hn] at h
      exact absurd h (by simp)
    | ok nk =>
      simp only [hn] at h
      cases hw : env.walletFromKey nk with
      | none =>
        simp only [hw] at h
        exact absurd h (by simp)
      | some w =>
        simp only [hw, Except.ok.injEq] at h
        subst h
        exact hkey nk w hw
  · intro m s h
    simp only [recoverWalletFromMnemonic] at h
    split at h
    · exact absurd h (by simp)
    · cases hw : env.walletFromPhrase (squashWS (trimList m)) with
      | none =>
        simp only [hw] at h
        exact absurd h (by simp)
      | some w =>
        simp only [hw, Except.ok.injEq] at h
        subst h
        exact hphrase _ w hw
  · exact hrand

/-- C9 (witness): the test environment satisfies the ethers facts, and a
created wallet indeed carries its mnemonic. -/
theorem snapshot_mnemonic_presence_witness :
    (createWallet testEnv).mnemonic.isSome = true := by
  refine (snapshot_mnemonic_presence testEnv ?_ ?_ ?_).2.2
  · intro k w h
    have h2 : testWalletFromKey k = some w := h
    unfold testWalletFromKey at h2
    by_cases hk : k = keyAB
    · rw [if_pos hk] at h2
      injection h2 with h3
      subst h3
      rfl
    · rw [if_neg hk] at h2
      exact Option.noConfusion h2
  · intro p w h
    have h2 : testWalletFromPhrase p = some w := h
    unfold testWalletFromPhrase at h2
    by_cases hp : p = phraseAbCd
    · rw [if_pos hp] at h2
      injection h2 with h3
      subst h3
      rfl
    · rw [if_neg hp] at h2
      exact Option.noConfusion h2
  · rfl

/-! ### Claim C10 — the validity probe -/

/-- C10: `isValidPrivateKey` is a total function (never throws) and
returns `true` exactly when `recoverWalletFromPrivateKey` succeeds; in
particular it returns `false` on every input that is empty after
trimming. -/
theorem isValidPrivateKey_agrees_with_recover (env : ChainEnv) (k : List Char) :
    (isValidPrivateKey env k = true ↔ ∃ s, recoverWalletFromPrivateKey env k = .ok s)
    ∧ (trimList k = [] → isValidPrivateKey env k = false) := by
  constructor
  · unfold isValidPrivateKey
    cases hr : recoverWalletFromPrivateKey env k with
    | ok s => simp [hr]
    | error e => simp [hr]
  · intro h
    simp [isValidPrivateKey, recoverWalletFromPrivateKey, normalizePrivateKey, h]

/-- C10 (witness): the untagged test key is valid because recovery
succeeds on it. -/
theorem isValidPrivateKey_agrees_with_recover_witness :
    isValidPrivateKey testEnv chAB = true :=
  (isValidPrivateKey_agrees_with_recover testEnv chAB).1.mpr
    ⟨toSnapshot specimenWallet, rfl⟩

/-! ### Claim C1 — progress trace of a successful transfer -/

/-- C1: whenever `sendNativeTransaction` returns a transfer result, the
progress callback was invoked exactly three times, in the order
`signing`, `broadcasted`, `confirming`, and both hash-carrying events
carry the transaction hash of the result. -/
theorem sendNativeTransaction_progress_trace (env : ChainEnv) (cache : ProviderCache)
    (request : NativeTransferRequest) (events : List TransferProgress)
    (cache2 : ProviderCache) (res : NativeTransferResult)
    (h : sendNativeTransaction env cache request = (events, cache2, .ok res)) :
    events = [⟨.signing, none⟩, ⟨.broadcasted, some res.hash⟩,
      ⟨.confirming, some res.hash⟩] := by
  simp only [sendNativeTransaction] at h
  cases hto : normalizeRecipientAddress env request.toAddr with
  | error e => simp only [hto] at h; simp at h
  | ok recipient =>
    simp only [hto] at h
    cases hamt : normalizeTransferAmount env request.amountEth with
    | error e => simp only [hamt] at h; simp at h
    | ok value =>
      simp only [hamt] at h
      cases hk : normalizePrivateKey request.privateKey with
      | error e => simp only [hk] at h; simp at h
      | ok nk =>
        simp only [hk] at h
        cases hw : env.walletFromKey nk with
        | none => simp only [hw] at h; simp at h
        | some signer =>
          simp only [hw] at h
          cases hsend : env.sendTransaction (getProvider cache request.network).1
              nk recipient value with
          | none => simp only [hsend] at h; simp at h
          | some response =>
            simp only [hsend] at h
            cases hwait : env.wait response.hash with
            | none => simp only [hwait] at h; simp at h
            | some rc =>
              cases rc with
              | none => simp only [hwait] at h; simp at h
              | some receipt =>
                simp only [hwait] at h
                by_cases hst : receipt.status = 1
                · rw [if_pos hst] at h
                  simp only [Prod.mk.injEq, Except.ok.injEq] at h
                  obtain ⟨h1, h2, h3⟩ := h
                  subst h1
                  subst h3
                  rfl
                · rw [if_neg hst] at h
                  simp at h

/-- C1 (witness): the fully successful concrete run emits exactly the
three events, both later ones carrying the broadcast hash. -/
theorem sendNativeTransaction_progress_trace_witness :
    (sendNativeTransaction testEnv emptyProviders okRequest).1 =
      [⟨.signing, none⟩, ⟨.broadcasted, some (("0xhash").toList)⟩,
        ⟨.confirming, some (("0xhash").toList)⟩] := by
  have h := sendNativeTransaction_progress_trace testEnv emptyProviders okRequest
    (sendNativeTransaction testEnv emptyProviders okRequest).1
    (sendNativeTransaction testEnv emptyProviders okRequest).2.1
    okResult rfl
  exact h

/-! ### Claim C2 — amount validation -/

/-- C2: for a request whose recipient passes validation and whose amount
is non-empty after trimming, an amount the parser rejects fails with
`invalidAmount` and an amount parsing to a non-positive value fails with
`nonPositiveAmount`; in both cases the call returns before touching the
network — no progress event is emitted (in particular no `signing`
event) and the provider cache is not even consulted. -/
theorem sendNativeTransaction_amount_validation (env : ChainEnv) (cache : ProviderCache)
    (request : NativeTransferRequest) (recipient : List Char)
    (hto : normalizeRecipientAddress env request.toAddr = .ok recipient)
    (hne : trimList request.amountEth ≠ []) :
    (env.parseEther (trimList request.amountEth) = none →
      sendNativeTransaction env cache request = ([], cache, .error .invalidAmount))
    ∧ (∀ v, env.parseEther (trimList request.amountEth) = some v → v ≤ 0 →
      sendNativeTransaction env cache request = ([], cache, .error .nonPositiveAmount)) := by
  constructor
  · intro hp
    simp [sendNativeTransaction, hto, normalizeTransferAmount, hne, hp]
  · intro v hp hv
    simp [sendNativeTransaction, hto, normalizeTransferAmount, hne, hp, hv]

/-- C2 (witness): the spec scenario — amount "0" with a valid recipient
fails with `nonPositiveAmount`, zero events, cache untouched. -/
theorem sendNativeTransaction_amount_validation_witness :
    sendNativeTransaction testEnv emptyProviders zeroAmountRequest
      = ([], emptyProviders, .error .nonPositiveAmount) :=
  (sendNativeTransaction_amount_validation testEnv emptyProviders zeroAmountRequest
    addrOk rfl (by decide)).2 0 rfl (by decide)

/-! ### Claim C3 — recipient validation -/

/-- C3 (counterexample): the claim as stated is false for the empty
recipient: the source throws "Recipient address is required." there, a
distinct error from the "Invalid recipient address." that the claim (and
the spec scenario for `"not-an-address"`) calls `InvalidRecipient`. -/
theorem sendNativeTransaction_empty_recipient_cex :
    sendNativeTransaction testEnv emptyProviders emptyRecipientRequest
      = ([], emptyProviders, .error .recipientRequired)
    ∧ WalletError.recipientRequired ≠ WalletError.invalidRecipient :=
  ⟨rfl, by decide⟩

/-- C3 (amended): a recipient that is empty after trimming fails with
the distinct `recipientRequired` error; a non-empty recipient rejected
by the address check fails with `invalidRecipient`.  In both cases zero
progress events are emitted and the provider cache is untouched, and the
result does not depend on the amount at all — recipient validation runs
first, so a request with both a malformed recipient and a malformed
amount fails with the recipient error. -/
theorem sendNativeTransaction_recipient_validation (env : ChainEnv)
    (cache : ProviderCache) (request : NativeTransferRequest) :
    (trimList request.toAddr = [] →
      sendNativeTransaction env cache request = ([], cache, .error .recipientRequired))
    ∧ (trimList request.toAddr ≠ [] → env.isAddress (trimList request.toAddr) = false →
      sendNativeTransaction env cache request = ([], cache, .error .invalidRecipient)) := by
  constructor
  · intro h
    simp [sendNativeTransaction, normalizeRecipientAddress, h]
  · intro h1 h2
    simp [sendNativeTransaction, normalizeRecipientAddress, h1, h2]

/-- C3 (witness): the spec scenario — recipient "not-an-address" fails
with `invalidRecipient`, zero events, cache untouched (the request's
amount is valid, so the recipient error indeed wins). -/
theorem sendNativeTransaction_recipient_validation_witness :
    sendNativeTransaction testEnv emptyProviders badRecipientRequest
      = ([], emptyProviders, .error .invalidRecipient) :=
  (sendNativeTransaction_recipient_validation testEnv emptyProviders
    badRecipientRequest).2 (by decide) (by decide)

/-! ### Claim C4 — receipt status decides the outcome -/

/-- C4: a transfer result is returned only when the confirmation wait
produced a receipt with success status; and for a broadcast transaction
whose receipt is missing (null) or reports a non-success status, the
call fails with `onChainFailure` instead of returning a result. -/
theorem sendNativeTransaction_receipt_status (env : ChainEnv) (cache : ProviderCache)
    (request : NativeTransferRequest) :
    (∀ events cache2 res,
      sendNativeTransaction env cache request = (events, cache2, .ok res) →
      ∃ rc, env.wait res.hash = some (some rc) ∧ rc.status = 1)
    ∧ (∀ recipient value nk w response,
        normalizeRecipientAddress env request.toAddr = .ok recipient →
        normalizeTransferAmount env request.amountEth = .ok value →
        normalizePrivateKey request.privateKey = .ok nk →
        env.walletFromKey nk = some w →
        env.sendTransaction (getProvider cache request.network).1 nk recipient value
          = some response →
        ((env.wait response.hash = some none →
            (sendNativeTransaction env cache request).2.2 = .error .onChainFailure)
          ∧ ∀ rc, env.wait response.hash = some (some rc) → rc.status ≠ 1 →
              (sendNativeTransaction env cache request).2.2
                = .error .onChainFailure)) := by
  constructor
  · intro events cache2 res h
    simp only [sendNativeTransaction] at h
    cases hto : normalizeRecipientAddress env request.toAddr with
    | error e => simp only [hto] at h; simp at h
    | ok recipient =>
      simp only [hto] at h
      cases hamt : normalizeTransferAmount env request.amountEth with
      | error e => simp only [hamt] at h; simp at h
      | ok value =>
        simp only [hamt] at h
        cases hk : normalizePrivateKey request.privateKey with
        | error e => simp only [hk] at h; simp at h
        | ok nk =>
          simp only [hk] at h
          cases hw : env.walletFromKey nk with
          | none => simp only [hw] at h; simp at h
          | some signer =>
            simp only [hw] at h
            cases hsend : env.sendTransaction (getProvider cache request.network).1
                nk recipient value with
            | none => simp only [hsend] at h; simp at h
            | some response =>
              simp only [hsend] at h
              cases hwait : env.wait response.hash with
              | none => simp only [hwait] at h; simp at h
              | some rc =>
                cases rc with
                | none => simp only [hwait] at h; simp at h
                | some receipt =>
                  simp only [hwait] at h
                  by_cases hst : receipt.status = 1
                  · rw [if_pos hst] at h
                    simp only [Prod.mk.injEq, Except.ok.injEq] at h
                    obtain ⟨h1, h2, h3⟩ := h
                    subst h3
                    exact ⟨receipt, hwait, hst⟩
                  · rw [if_neg hst] at h
                    simp at h
  · intro recipient value nk w response hto hamt hk hw hsend
    constructor
    · intro hwait
      simp [sendNativeTransaction, hto, hamt, hk, hw, hsend, hwait]
    · intro rc hwait hst
      simp [sendNativeTransaction, hto, hamt, hk, hw, hsend, hwait, hst]

/-- C4 (witness): under the environment whose mined receipt reports
failure status, the otherwise fully valid concrete transfer fails with
`onChainFailure`. -/
theorem sendNativeTransaction_receipt_status_witness :
    (sendNativeTransaction failEnv emptyProviders okRequest).2.2
      = .error .onChainFailure :=
  ((sendNativeTransaction_receipt_status failEnv emptyProviders okRequest).2
    addrOk 1000000000000000000 keyAB specimenWallet specimenResponse
    rfl rfl rfl rfl rfl).2 badReceipt rfl (by decide)
